import Mathlib

/-
Shallow embedding of the PDF text-reconstruction pipeline (src/index.js and
the sibling revisions src/unnamed/part_000, src/unnamed/part_001).
Strings are Lean strings; JS regex tests are translated into character-level
scanners; JS floating-point scores and fractions are modelled with ℚ.
-/

set_option maxRecDepth 4000

namespace PdfPipeline

/-! ### Character classes used by the JS regexes (ASCII, as in the source data) -/

def isAsciiUpper (c : Char) : Bool := decide ('A' ≤ c) && decide (c ≤ 'Z')

def isAsciiLower (c : Char) : Bool := decide ('a' ≤ c) && decide (c ≤ 'z')

def isDigitCh (c : Char) : Bool := decide ('0' ≤ c) && decide (c ≤ '9')

/-- JS `\s` on the inputs in play: space, tab, newline, carriage return,
form feed, vertical tab. -/
def isWsCh (c : Char) : Bool :=
  c = ' ' || c = '\t' || c = '\n' || c = '\r' || c = Char.ofNat 12 || c = Char.ofNat 11

/-! ### String utilities translated from the JS string methods -/

/-- JS `String.prototype.trim` (whitespace at both ends removed). -/
def trimChars (l : List Char) : List Char :=
  ((l.dropWhile isWsCh).reverse.dropWhile isWsCh).reverse

def trimJS (s : String) : String := String.mk (trimChars s.toList)

/-- Split on `'\n'`; together with per-line trimming this models
`split(/\r?\n/)` followed by `trim` in the analyzer constructor. -/
def splitNlAux : List Char → List Char → List String
  | [], acc => [String.mk acc.reverse]
  | c :: cs, acc =>
    if c = '\n' then String.mk acc.reverse :: splitNlAux cs []
    else splitNlAux cs (c :: acc)

def splitLinesRaw (s : String) : List String := splitNlAux s.toList []

/-- `rawText.split(/\r?\n/).map(l => l.trim()).filter(l => l)` -/
def mkLines (raw : String) : List String :=
  ((splitLinesRaw raw).map trimJS).filter (fun l => l ≠ "")

/-- JS `line.split(/\s+/)` on a trimmed line: maximal runs of non-whitespace. -/
def wordsAux : List Char → List Char → List String
  | [], acc => if acc.isEmpty then [] else [String.mk acc.reverse]
  | c :: cs, acc =>
    if isWsCh c then
      if acc.isEmpty then wordsAux cs [] else String.mk acc.reverse :: wordsAux cs []
    else wordsAux cs (c :: acc)

def splitWs (s : String) : List String := wordsAux s.toList []

def joinSep (sep : String) : List String → String
  | [] => ""
  | [x] => x
  | x :: xs => x ++ sep ++ joinSep sep xs

def lastCharOf (s : String) : Option Char := s.toList.getLast?

def firstCharOf (s : String) : Option Char := s.toList.head?

/-- JS `/[.!?;]$/.test(line)` (`endsWithPunctuation`). -/
def endsWithPunctuation (s : String) : Bool :=
  match lastCharOf s with
  | some c => c = '.' || c = '!' || c = '?' || c = ';'
  | none => false

/-- JS `/[.!?]$/.test(l)` used for the sentence-ending statistic. -/
def endsSentence (s : String) : Bool :=
  match lastCharOf s with
  | some c => c = '.' || c = '!' || c = '?'
  | none => false

/-- JS `/:$/.test(line)`. -/
def endsWithColon (s : String) : Bool :=
  match lastCharOf s with
  | some c => c = ':'
  | none => false

/-- JS `/^[A-Z"'([]/.test(line)` (`startsWithCapital`). -/
def startsWithCapital (s : String) : Bool :=
  match firstCharOf s with
  | some c => isAsciiUpper c || c = Char.ofNat 34 || c = Char.ofNat 39 || c = '(' || c = '['
  | none => false

/-- JS `/^[a-z]/.test(line)`. -/
def startsWithLower (s : String) : Bool :=
  match firstCharOf s with
  | some c => isAsciiLower c
  | none => false

/-- JS `/^[A-Z]/.test(w)`. -/
def startsWithUpperLetter (s : String) : Bool :=
  match firstCharOf s with
  | some c => isAsciiUpper c
  | none => false

/-- JS `/[A-Z]/.test(line)`. -/
def hasUpper (s : String) : Bool := s.toList.any isAsciiUpper

/-- JS `line.toUpperCase()` (ASCII inputs). -/
def toUpperJS (s : String) : String := String.mk (s.toList.map Char.toUpper)

def toLowerJS (s : String) : String := String.mk (s.toList.map Char.toLower)

/-- Consume one-or-more whitespace characters (`\s+`); `some rest` on success. -/
def wsPlus : List Char → Option (List Char)
  | c :: cs => if isWsCh c then some (cs.dropWhile isWsCh) else none
  | [] => none

/-- Consume one-or-more digits (`\d+`); `some rest` on success. -/
def digitsPlus (l : List Char) : Option (List Char) :=
  if (l.takeWhile isDigitCh).isEmpty then none else some (l.dropWhile isDigitCh)

def isRomanCh (c : Char) : Bool :=
  c = 'I' || c = 'V' || c = 'X' || c = 'L' || c = 'C' || c = 'D' || c = 'M'

def romanPlus (l : List Char) : Option (List Char) :=
  if (l.takeWhile isRomanCh).isEmpty then none else some (l.dropWhile isRomanCh)

def isPrefixL : List Char → List Char → Bool
  | [], _ => true
  | _ :: _, [] => false
  | a :: as, b :: bs => a = b && isPrefixL as bs

/-! ### TextStructureAnalyzer (src/index.js lines 17-102)

The JS code scores lines with fractional weights (0.5, 1.5, 2.5) and compares
lengths against fractional multiples of the median line length.  The executable
layer below works in exact integer arithmetic: scores are kept in tenths of the
JS weights, and the median is kept doubled (`medianLength2`), so every JS
comparison becomes an equivalent cross-multiplied `Nat` comparison.  A ℚ-valued
reference layer (`median`, the `...Q` factors) mirrors the JS arithmetic
literally, and bridge theorems prove the two layers agree. -/

/-- `median(arr)` — sort ascending; middle element for odd length, average of
the two central elements for even length (src/index.js lines 39-43). -/
def median (arr : List Nat) : ℚ :=
  let sorted := List.insertionSort (· ≤ ·) arr
  let mid := sorted.length / 2
  if sorted.length % 2 = 1 then (sorted.getD mid 0 : ℚ)
  else ((sorted.getD (mid - 1) 0 : ℚ) + (sorted.getD mid 0 : ℚ)) / 2

/-- Twice `median(arr)`, as a natural number (exact, since the median is either
an element or the average of two elements). -/
def median2 (arr : List Nat) : Nat :=
  let sorted := List.insertionSort (· ≤ ·) arr
  let mid := sorted.length / 2
  if sorted.length % 2 = 1 then 2 * sorted.getD mid 0
  else sorted.getD (mid - 1) 0 + sorted.getD mid 0

structure Stats where
  avgLength : ℚ
  medianLength : ℚ
  medianLength2 : Nat
  sentenceEndingRate : ℚ
  colonEndingRate : ℚ
  totalLines : Nat

/-- `analyzeDocument()` (src/index.js lines 23-37); `medianLength2` carries the
doubled median for the executable classifier. -/
def analyzeDocument (lines : List String) : Stats :=
  let lengths := lines.map String.length
  { avgLength := ((lengths.foldl (· + ·) 0 : Nat) : ℚ) / (lengths.length : ℚ)
    medianLength := median lengths
    medianLength2 := median2 lengths
    sentenceEndingRate := ((lines.filter endsSentence).length : ℚ) / (lines.length : ℚ)
    colonEndingRate := ((lines.filter endsWithColon).length : ℚ) / (lines.length : ℚ)
    totalLines := lines.length }

/-- `isListItem(line)`: `/^(\d+\.|\d+\)|\-|\*|•|○|§|[a-z]\.|[A-Z]\.)\s+/.test(line)`
(src/index.js lines 85-87). -/
def isListItem (s : String) : Bool :=
  let l := s.toList
  (match digitsPlus l with
   | some (c :: rest) => (c = '.' || c = ')') && (wsPlus rest).isSome
   | _ => false) ||
  (match l with
   | c :: rest =>
     (c = '-' || c = '*' || c = Char.ofNat 0x2022 || c = Char.ofNat 0x25CB ||
      c = Char.ofNat 0xA7) && (wsPlus rest).isSome
   | [] => false) ||
  (match l with
   | a :: c :: rest => (isAsciiLower a || isAsciiUpper a) && c = '.' && (wsPlus rest).isSome
   | _ => false)

/-- `/^(\d+\.|\d+\)|\-|\*|•)\s+[A-Z]/.test(line)` (factor 6 of `isHeaderLine`). -/
def numberedHeaderStart (s : String) : Bool :=
  let l := s.toList
  let afterMarker : Option (List Char) :=
    match digitsPlus l with
    | some (c :: rest) => if c = '.' || c = ')' then some rest else none
    | some [] => none
    | none =>
      match l with
      | c :: rest =>
        if c = '-' || c = '*' || c = Char.ofNat 0x2022 then some rest else none
      | [] => none
  match afterMarker with
  | some rest =>
    (match wsPlus rest with
     | some (c :: _) => isAsciiUpper c
     | _ => false)
  | none => false

/-- `/^\d+\.\s+[A-Z]/.test(line)` (header pattern 3). -/
def numberedDotUpper (s : String) : Bool :=
  match digitsPlus s.toList with
  | some (c :: rest) =>
    c = '.' &&
    (match wsPlus rest with
     | some (d :: _) => isAsciiUpper d
     | _ => false)
  | _ => false

/-- `/^[IVXLCDM]+\.\s+[A-Z]/.test(line)` (header pattern 4). -/
def romanDotUpper (s : String) : Bool :=
  match romanPlus s.toList with
  | some (c :: rest) =>
    c = '.' &&
    (match wsPlus rest with
     | some (d :: _) => isAsciiUpper d
     | _ => false)
  | _ => false

def headerKeywords : List String :=
  ["chapter", "section", "part", "appendix", "introduction", "conclusion",
   "abstract", "summary", "overview", "background",
   "table of contents", "references", "bibliography", "acknowledgments"]

/-- `headerPatterns.some(p => p.test(line))` (src/index.js lines 73-79). -/
def headerPatternMatch (s : String) : Bool :=
  headerKeywords.any (fun k => isPrefixL k.toList (toLowerJS s).toList) ||
  numberedDotUpper s || romanDotUpper s

/-! Executable factors, in tenths of the JS weight.  Each condition is the
JS condition with both sides scaled by a positive constant so that it is exact
`Nat` arithmetic; the `...Q` definitions below restate the JS arithmetic
verbatim over ℚ and the bridge theorems prove the factors agree. -/

/-- Factor 1: `line.length < Math.min(stats.medianLength * 0.6, 80)`
→ weight 1.  (Both sides scaled by 10; `medianLength * 6 = medianLength2 * 3`.) -/
def lengthFactor (stats : Stats) (line : String) : Nat :=
  if 10 * line.length < min (3 * stats.medianLength2) 800 then 10 else 0

/-- Factor 2: all-caps with more than 1 and fewer than 12 words → weight 2. -/
def allCapsFactor (line : String) : Nat :=
  let words := splitWs line
  if line = toUpperJS line ∧ hasUpper line = true ∧
     1 < words.length ∧ words.length < 12 then 20 else 0

/-- Factor 3: `capitalizedWords.length >= words.length * 0.7`, 2-14 words, and
no terminal punctuation → weight 1.5.  (First condition scaled by 10.) -/
def titleCaseFactor (line : String) : Nat :=
  let words := splitWs line
  let capitalizedWords := words.filter (fun w => startsWithUpperLetter w && decide (2 < w.length))
  if 7 * words.length ≤ 10 * capitalizedWords.length ∧
     2 ≤ words.length ∧ words.length < 15 ∧ endsWithPunctuation line = false
  then 15 else 0

/-- Factor 4: no terminal punctuation and under 100 characters → weight 1. -/
def noPunctFactor (line : String) : Nat :=
  if endsWithPunctuation line = false ∧ line.length < 100 then 10 else 0

/-- Factor 5: ends with a colon → weight 2. -/
def colonFactor (line : String) : Nat :=
  if endsWithColon line = true then 20 else 0

/-- Factor 6: numbered/bulleted heading under 100 characters → weight 1.5. -/
def numberedFactor (line : String) : Nat :=
  if numberedHeaderStart line = true ∧ line.length < 100 then 15 else 0

/-- The JS neighbor lookup `index > 0 ? this.lines[index - 1] : ""`; `index`
may be `-1` (from `isContinuation`). -/
def prevLineOf (lines : List String) (index : Int) : String :=
  if 0 < index then lines.getD (index - 1).toNat "" else ""

/-- The JS neighbor lookup `index < this.lines.length - 1 ? this.lines[index + 1] : ""`. -/
def nextLineOf (lines : List String) (index : Int) : String :=
  if index < (lines.length : Int) - 1 then lines.getD (index + 1).toNat "" else ""

/-- Factor 7: `prevLine.length > line.length * 1.5` or the same for `nextLine`
→ weight 0.5.  (Both sides scaled by 2.) -/
def contextFactor (lines : List String) (line : String) (index : Int) : Nat :=
  if 3 * line.length < 2 * (prevLineOf lines index).length ∨
     3 * line.length < 2 * (nextLineOf lines index).length then 5 else 0

/-- Factor 8: matches one of the fixed header patterns → weight 2. -/
def keywordFactor (line : String) : Nat :=
  if headerPatternMatch line = true then 20 else 0

/-- The accumulated score of `isHeaderLine` (src/index.js lines 45-81), in
tenths of the JS score. -/
def scoreHeader (lines : List String) (stats : Stats) (line : String) (index : Int) : Nat :=
  lengthFactor stats line + allCapsFactor line + titleCaseFactor line +
  noPunctFactor line + colonFactor line + numberedFactor line +
  contextFactor lines line index + keywordFactor line

/-- `isHeaderLine(line, index)`: `score >= 2.5` (src/index.js line 82), i.e.
25 tenths. -/
def isHeaderLine (lines : List String) (stats : Stats) (line : String) (index : Int) : Bool :=
  decide (25 ≤ scoreHeader lines stats line index)

/-- `isContinuation(line)` (src/index.js lines 89-93); note the `-1` index. -/
def isContinuation (lines : List String) (stats : Stats) (line : String) : Bool :=
  !isListItem line && startsWithLower line && !isHeaderLine lines stats line (-1)

/-! The ℚ reference layer: the JS scoring arithmetic verbatim. -/

def lengthFactorQ (stats : Stats) (line : String) : ℚ :=
  if (line.length : ℚ) < min (stats.medianLength * 0.6) 80 then 1 else 0

def allCapsFactorQ (line : String) : ℚ :=
  let words := splitWs line
  if line = toUpperJS line ∧ hasUpper line = true ∧
     1 < words.length ∧ words.length < 12 then 2 else 0

def titleCaseFactorQ (line : String) : ℚ :=
  let words := splitWs line
  let capitalizedWords := words.filter (fun w => startsWithUpperLetter w && decide (2 < w.length))
  if (words.length : ℚ) * 0.7 ≤ (capitalizedWords.length : ℚ) ∧
     2 ≤ words.length ∧ words.length < 15 ∧ endsWithPunctuation line = false
  then 1.5 else 0

def noPunctFactorQ (line : String) : ℚ :=
  if endsWithPunctuation line = false ∧ line.length < 100 then 1 else 0

def colonFactorQ (line : String) : ℚ :=
  if endsWithColon line = true then 2 else 0

def numberedFactorQ (line : String) : ℚ :=
  if numberedHeaderStart line = true ∧ line.length < 100 then 1.5 else 0

def contextFactorQ (lines : List String) (line : String) (index : Int) : ℚ :=
  if (line.length : ℚ) * 1.5 < ((prevLineOf lines index).length : ℚ) ∨
     (line.length : ℚ) * 1.5 < ((nextLineOf lines index).length : ℚ) then 0.5 else 0

def keywordFactorQ (line : String) : ℚ :=
  if headerPatternMatch line = true then 2 else 0

def scoreHeaderQ (lines : List String) (stats : Stats) (line : String) (index : Int) : ℚ :=
  lengthFactorQ stats line + allCapsFactorQ line + titleCaseFactorQ line +
  noPunctFactorQ line + colonFactorQ line + numberedFactorQ line +
  contextFactorQ lines line index + keywordFactorQ line

/-! ### cleanNaturalText: block assembly and rendering (src/index.js lines 104-176) -/

inductive BKind where
  | header
  | list
  | paragraph
deriving DecidableEq

structure Block where
  kind : BKind
  lines : List String
  level : Nat
deriving DecidableEq

/-- `level: line.length < 30 ? 1 : line.length < 60 ? 2 : 3` -/
def headerLevel (line : String) : Nat :=
  if line.length < 30 then 1 else if line.length < 60 then 2 else 3

/-- One iteration of the `for` loop of `cleanNaturalText` on state
`(blocks, currentBlock)` and the `i`-th line. -/
def buildStep (lines : List String) (stats : Stats) (st : List Block × Block)
    (p : Nat × String) : List Block × Block :=
  let blocks := st.1
  let cur := st.2
  let line := p.2
  if isHeaderLine lines stats line (p.1 : Int) = true then
    ((if cur.lines ≠ [] then blocks ++ [cur] else blocks) ++
       [⟨BKind.header, [line], headerLevel line⟩],
     ⟨BKind.paragraph, [], 0⟩)
  else if isListItem line = true then
    let st1 := if cur.kind = BKind.paragraph ∧ cur.lines ≠ [] then
        (blocks ++ [cur], (⟨BKind.list, [], 0⟩ : Block)) else (blocks, cur)
    let st2 := if st1.2.kind ≠ BKind.list then
        (st1.1, (⟨BKind.list, [], 0⟩ : Block)) else st1
    (st2.1, { st2.2 with lines := st2.2.lines ++ [line] })
  else
    let st1 := if cur.kind = BKind.list ∧ cur.lines ≠ [] then
        (blocks ++ [cur], (⟨BKind.paragraph, [], 0⟩ : Block)) else (blocks, cur)
    if st1.2.lines ≠ [] then
      let lastLine := st1.2.lines.getLastD ""
      let shouldMerge :=
        !endsWithPunctuation lastLine || isContinuation lines stats line ||
        (decide (lastLine.length < 80) && !startsWithCapital line)
      if shouldMerge then
        (st1.1, { st1.2 with lines := st1.2.lines.dropLast ++ [lastLine ++ " " ++ line] })
      else
        (st1.1, { st1.2 with lines := st1.2.lines ++ [line] })
    else
      (st1.1, { st1.2 with lines := [line] })

/-- A disentangled form of `buildStep` (same function, proved equal in
`buildStep_eq`), used by the proofs. -/
def buildStepSpec (lines : List String) (stats : Stats) (st : List Block × Block)
    (p : Nat × String) : List Block × Block :=
  let blocks := st.1
  let cur := st.2
  let line := p.2
  if isHeaderLine lines stats line (p.1 : Int) = true then
    ((if cur.lines ≠ [] then blocks ++ [cur] else blocks) ++
       [⟨BKind.header, [line], headerLevel line⟩],
     ⟨BKind.paragraph, [], 0⟩)
  else if isListItem line = true then
    if cur.kind = BKind.paragraph ∧ cur.lines ≠ [] then
      (blocks ++ [cur], ⟨BKind.list, [line], 0⟩)
    else if cur.kind = BKind.list then
      (blocks, { cur with lines := cur.lines ++ [line] })
    else
      (blocks, ⟨BKind.list, [line], 0⟩)
  else
    if cur.kind = BKind.list ∧ cur.lines ≠ [] then
      (blocks ++ [cur], ⟨BKind.paragraph, [line], 0⟩)
    else if cur.lines ≠ [] then
      let lastLine := cur.lines.getLastD ""
      if (!endsWithPunctuation lastLine || isContinuation lines stats line ||
          (decide (lastLine.length < 80) && !startsWithCapital line)) = true then
        (blocks, { cur with lines := cur.lines.dropLast ++ [lastLine ++ " " ++ line] })
      else
        (blocks, { cur with lines := cur.lines ++ [line] })
    else
      (blocks, { cur with lines := [line] })

/-- The full loop plus the final flush of `currentBlock`. -/
def buildBlocks (lines : List String) (stats : Stats) : List Block :=
  let st := lines.enum.foldl (buildStep lines stats) ([], ⟨BKind.paragraph, [], 0⟩)
  if st.2.lines ≠ [] then st.1 ++ [st.2] else st.1

def hashesStr (n : Nat) : String := String.mk (List.replicate n (Char.ofNat 35))

/-- Rendering of one block (src/index.js lines 166-174). -/
def renderBlock (b : Block) : String :=
  match b.kind with
  | BKind.header =>
    "\n" ++ hashesStr b.level ++ " " ++ toUpperJS (b.lines.getD 0 "") ++ " " ++
      hashesStr b.level ++ "\n"
  | BKind.list => joinSep "\n" b.lines
  | BKind.paragraph => joinSep " " b.lines

/-- `.replace(/\n{3,}/g, "\n\n")` -/
def collapseNlAux : List Char → Nat → List Char
  | [], run => if 3 ≤ run then ['\n', '\n'] else List.replicate run '\n'
  | c :: cs, run =>
    if c = '\n' then collapseNlAux cs (run + 1)
    else (if 3 ≤ run then ['\n', '\n'] else List.replicate run '\n') ++ c :: collapseNlAux cs 0

def collapseNl (s : String) : String := String.mk (collapseNlAux s.toList 0)

/-- `cleanNaturalText(rawText)` (src/index.js lines 104-176); the leading
`if (!rawText) return ""` is the empty-string case. -/
def cleanNaturalText (rawText : String) : String :=
  if rawText = "" then ""
  else
    let lines := mkLines rawText
    let stats := analyzeDocument lines
    trimJS (collapseNl (joinSep "\n\n" ((buildBlocks lines stats).map renderBlock)))

/-! ### cleanPages: artifact cleanup and page filtering (src/index.js lines 178-191) -/

def MIN_CHARS_PER_PAGE : Nat := 50

/-- `.replace(/\f/g, "")` -/
def stripFormFeeds (s : String) : String :=
  String.mk (s.toList.filter (fun c => c ≠ Char.ofNat 12))

def lowEq (c k : Char) : Bool := Char.toLower c = k

/-- Try to consume one occurrence of `/Page \d+ of \d+/i` at the head. -/
def matchPageOf : List Char → Option (List Char)
  | p :: a :: g :: e :: sp :: rest =>
    if lowEq p 'p' && lowEq a 'a' && lowEq g 'g' && lowEq e 'e' && sp = ' ' then
      match digitsPlus rest with
      | some (s1 :: o :: f :: s2 :: rest2) =>
        if s1 = ' ' && lowEq o 'o' && lowEq f 'f' && s2 = ' ' then
          digitsPlus rest2
        else none
      | _ => none
    else none
  | _ => none

/-- `.replace(/Page \d+ of \d+/gi, "")`, scanning left to right; the fuel is
the input length, which bounds the number of scan steps. -/
def replacePageOfAux : Nat → List Char → List Char
  | 0, l => l
  | _ + 1, [] => []
  | n + 1, c :: cs =>
    match matchPageOf (c :: cs) with
    | some rest => replacePageOfAux n rest
    | none => c :: replacePageOfAux n cs

def replacePageOf (s : String) : String :=
  String.mk (replacePageOfAux s.toList.length s.toList)

/-- `.replace(/^\d+\s*$/gm, "")`, applied line by line. -/
def stripLoneNumbers (s : String) : String :=
  joinSep "\n" ((splitLinesRaw s).map (fun l =>
    let cs := l.toList
    if ¬(cs.takeWhile isDigitCh).isEmpty ∧ (cs.dropWhile isDigitCh).all isWsCh
    then "" else l))

/-- `.replace(/^[\s\-_]+$/gm, "")`, applied line by line. -/
def stripDashLines (s : String) : String :=
  joinSep "\n" ((splitLinesRaw s).map (fun l =>
    let cs := l.toList
    if cs ≠ [] ∧ cs.all (fun c => isWsCh c || c = '-' || c = '_')
    then "" else l))

structure RawPage where
  page : Nat
  text : String
deriving DecidableEq

structure CleanPage where
  pageNumber : Nat
  text : String
deriving DecidableEq

/-- The cleaning applied to one page's text inside `cleanPages`. -/
def cleanedTextOf (text : String) : String :=
  stripDashLines (stripLoneNumbers (replacePageOf (stripFormFeeds (cleanNaturalText text))))

/-- `cleanPages(pages)` (src/index.js lines 178-191): renumber by array
position, clean, and keep pages whose trimmed text has at least
`MIN_CHARS_PER_PAGE` characters. -/
def cleanPages (pages : List RawPage) : List CleanPage :=
  (pages.enum.map (fun p => (⟨p.1 + 1, cleanedTextOf p.2.text⟩ : CleanPage))).filter
    (fun p => MIN_CHARS_PER_PAGE ≤ (trimJS p.text).length)

/-! ### ExtractionStrategy: local-vs-OCR decision

src/index.js line 200:   `usable = pages.some(p => p.text.length >= MIN_CHARS_PER_PAGE)`
src/unnamed/part_000 line 125:
  `usable = pages.filter(p => p.text.trim().length >= MIN_CHARS_PER_PAGE).length / pages.length > 0.5` -/

inductive Method where
  | pdfParse
  | azure
deriving DecidableEq

/-- The `usable` test of src/index.js `processSinglePDF`. -/
def usableIndex (pages : List RawPage) : Bool :=
  pages.any (fun p => MIN_CHARS_PER_PAGE ≤ p.text.length)

/-- The number of pages of the part_000 revision that count as usable
(trimmed text length at least `MIN_CHARS_PER_PAGE`). -/
def usableCountP000 (pages : List RawPage) : Nat :=
  (pages.filter (fun p => MIN_CHARS_PER_PAGE ≤ (trimJS p.text).length)).length

/-- The `usable` test of part_000 `processSinglePDF`: the usable fraction
exceeds 0.5; cross-multiplied (`c / n > 1/2 ↔ n < 2c`, also matching the JS
`NaN > 0.5 = false` behavior when `n = 0`). -/
def usableP000 (pages : List RawPage) : Bool :=
  decide (pages.length < 2 * usableCountP000 pages)

/-- The usable fraction of part_000, as the spec states it (a ℚ value). -/
def usableFractionP000 (pages : List RawPage) : ℚ :=
  (usableCountP000 pages : ℚ) / (pages.length : ℚ)

/-- The extraction method chosen by src/index.js:
`if (!usable || ocrOverride) { ... extractAzure ... }`. -/
def methodIndex (pages : List RawPage) (ocrOverride : Bool) : Method :=
  if !usableIndex pages || ocrOverride then Method.azure else Method.pdfParse

/-- The extraction method chosen by part_000. -/
def methodP000 (pages : List RawPage) (ocrOverride : Bool) : Method :=
  if !usableP000 pages || ocrOverride then Method.azure else Method.pdfParse

/-! ### Remote OCR backend: page assembly and the polling loops -/

structure AzLine where
  content : String
deriving DecidableEq

structure AzPage where
  pageNumber : Nat
  lines : List AzLine
deriving DecidableEq

/-- The page assembly of `extractAzure` (src/index.js lines 267-270):
`{ page: page.pageNumber, text: page.lines.map(l => l.content).join("\n") }`. -/
def extractAzurePages (ps : List AzPage) : List RawPage :=
  ps.map (fun page => ⟨page.pageNumber, joinSep "\n" (page.lines.map AzLine.content)⟩)

/-- part_000 lines 133-136: `pages.map(p => ({...p, text: clean(p.text)}))
.filter(p => p.text.length > 10)`; the part_000 cleaning composes the external
sentence tokenizer, so it is abstracted as a parameter `clean`. -/
def processedPagesP000 (clean : String → String) (pages : List RawPage) : List RawPage :=
  (pages.map (fun p => (⟨p.page, clean p.text⟩ : RawPage))).filter
    (fun p => 10 < p.text.length)

inductive AzStatus where
  | running
  | succeeded
  | failed
deriving DecidableEq

/-- The poll loop of `extractAzure` in src/index.js lines 258-265 (identical in
part_001): `while (!result) { sleep; poll; if (status === "succeeded") result = ... }`.
The `k`-th poll response is `s k`; the fuel argument bounds how many polls are
observed, `some ()` meaning the loop has exited within that many polls. -/
def extractAzurePollIdx : Nat → (Nat → AzStatus) → Option Unit
  | 0, _ => none
  | n + 1, s =>
    if s 0 = AzStatus.succeeded then some ()
    else extractAzurePollIdx n (fun k => s (k + 1))

/-- The poll loop of the active `extractAzure` of part_000 (lines 230-241):
`succeeded` breaks with the result, `failed` throws `"Azure OCR Failed"`,
anything else sleeps and polls again. -/
def extractAzurePollP000 : Nat → (Nat → AzStatus) → Option (Except String Unit)
  | 0, _ => none
  | n + 1, s =>
    if s 0 = AzStatus.succeeded then some (Except.ok ())
    else if s 0 = AzStatus.failed then some (Except.error "Azure OCR Failed")
    else extractAzurePollP000 n (fun k => s (k + 1))

/-! ### BatchOrchestrator: processSinglePDF and runQueue (src/index.js 193-227, 273-282)

The I/O effects of one document job (local parse result, OCR result, write
success) are modelled as data carried by the job; `pipeline` is the body of the
`try` block, and `processSinglePDF` is the `try/catch` producing exactly one
artifact. -/

instance exceptDecEq {ε α : Type} [DecidableEq ε] [DecidableEq α] :
    DecidableEq (Except ε α) := fun a b =>
  match a, b with
  | Except.ok x, Except.ok y =>
    if h : x = y then isTrue (congrArg Except.ok h)
    else isFalse (fun hh => h (Except.ok.inj hh))
  | Except.error x, Except.error y =>
    if h : x = y then isTrue (congrArg Except.error h)
    else isFalse (fun hh => h (Except.error.inj hh))
  | Except.ok _, Except.error _ => isFalse (fun hh => Except.noConfusion hh)
  | Except.error _, Except.ok _ => isFalse (fun hh => Except.noConfusion hh)

structure DocJob where
  name : String
  timestamp : String
  localPages : Except String (List RawPage)
  azurePages : Except String (List RawPage)
  writeOk : Bool
deriving DecidableEq

inductive Artifact where
  | success (base : String) (content : String)
  | failure (base : String) (err : String)
deriving DecidableEq

def Artifact.isFailure : Artifact → Bool
  | Artifact.success _ _ => false
  | Artifact.failure _ _ => true

/-- `file.replace(".pdf", "")` — JS `replace` with a string pattern replaces
only the first occurrence. -/
def replaceDotPdfAux : Nat → List Char → List Char
  | 0, l => l
  | _ + 1, [] => []
  | n + 1, c :: cs =>
    match c :: cs with
    | '.' :: 'p' :: 'd' :: 'f' :: rest => rest
    | _ => c :: replaceDotPdfAux n cs

def baseName (file : String) : String :=
  String.mk (replaceDotPdfAux file.toList.length file.toList)

def eqRepeat (n : Nat) : String := String.mk (List.replicate n '=')

def dashRepeat (n : Nat) : String := String.mk (List.replicate n '-')

def digitChar (n : Nat) : Char := Char.ofNat (48 + n)

/-- Decimal rendering of a natural number (fuel-based structural recursion;
`n + 1` fuel always suffices). -/
def natToStringAux : Nat → Nat → List Char
  | 0, _ => []
  | fuel + 1, n =>
    if n < 10 then [digitChar n]
    else natToStringAux fuel (n / 10) ++ [digitChar (n % 10)]

def natToString (n : Nat) : String := String.mk (natToStringAux (n + 1) n)

/-- The output assembly of `processSinglePDF` (src/index.js lines 210-219). -/
def renderOutput (file timestamp : String) (method : Method) (cleanedPages : List CleanPage) :
    String :=
  joinSep "\n"
    (["# Document: " ++ file,
      "# Processed: " ++ timestamp,
      (match method with
       | Method.pdfParse => "# Method: pdf-parse"
       | Method.azure => "# Method: azure"),
      "# Pages: " ++ natToString cleanedPages.length,
      "\n" ++ eqRepeat 80 ++ "\n"] ++
     cleanedPages.map (fun p =>
       "\n## Page " ++ natToString p.pageNumber ++ "\n" ++ dashRepeat 80 ++ "\n\n" ++ p.text))

/-- The body of the `try` block of `processSinglePDF`: local parse, the
usable/override decision, OCR fallback, cleaning, rendering, write.
The chosen pages and the reported method both follow `methodIndex` applied to
the locally parsed pages. -/
def pipeline (ocrOverride : Bool) (job : DocJob) : Except String String := do
  let localPages ← job.localPages
  let method := methodIndex localPages ocrOverride
  let pages ← match method with
    | Method.azure => job.azurePages
    | Method.pdfParse => pure localPages
  let cleanedPages := cleanPages pages
  let out := renderOutput job.name job.timestamp method cleanedPages
  if job.writeOk then pure out else Except.error "write failed"

/-- `processSinglePDF` with its `try/catch`: one success artifact or one error
artifact per document, never both. -/
def processSinglePDF (ocrOverride : Bool) (job : DocJob) : Artifact :=
  match pipeline ocrOverride job with
  | Except.ok out => Artifact.success (baseName job.name) out
  | Except.error e => Artifact.failure (baseName job.name) e

/-- `runQueue(items, limit, worker)` (src/index.js lines 273-282): the workers
drain the shared queue, so each item is popped and processed exactly once;
the per-item effect is the worker applied to that item. -/
def runQueue (items : List DocJob) (worker : DocJob → Artifact) : List Artifact :=
  items.map worker

/-! ### Invariant predicates used to verify the list-block discipline -/

/-- All flushed list blocks hold a subsequence of the already-consumed lines,
each classified as a list item. -/
def flushedOk (consumed : List String) (bs : List Block) : Prop :=
  ∀ b ∈ bs, b.kind = BKind.list →
    b.lines.Sublist consumed ∧ ∀ s ∈ b.lines, isListItem s = true

/-- The open block, when it is a list block, is nonempty and holds a
subsequence of the consumed lines, each classified as a list item. -/
def curOk (consumed : List String) (cur : Block) : Prop :=
  cur.kind = BKind.list →
    cur.lines ≠ [] ∧ cur.lines.Sublist consumed ∧ ∀ s ∈ cur.lines, isListItem s = true

/-! ### Concrete inputs used by witnesses and counterexamples -/

def exT50 : String := String.mk (List.replicate 50 'a')

def exT60 : String := String.mk (List.replicate 60 'a')

/-- A page text whose cleaned text has length exactly 50 but trimmed length 49:
two filler lines merged with a `"Page 11 of 22"` footer, whose removal leaves a
trailing space. -/
def exT6 : String :=
  String.mk (List.replicate 30 'a') ++ "\n" ++ String.mk (List.replicate 18 'b') ++
    "\nPage 11 of 22"

def exP1 : String := "The quick brown fox jumps over the lazy dog now."

def exH9 : String := "AA BB CC DD EE FF GG HH II JJ KK LL:"

def exD9 : String := exP1 ++ "\n" ++ exH9

def exR9 : String := "## " ++ exH9 ++ " ##"

def exL11 : String := "AB AB AB AB AB AB AB AB AB AB AB"

def exL12 : String := "AB AB AB AB AB AB AB AB AB AB AB AB"

def exL2 : String := "AB CD."

def exRaw8 : String := "- alpha one\n- beta two"

def exListBlock : Block := ⟨BKind.list, ["- alpha one", "- beta two"], 0⟩

/-- Ten locally parsed pages of which exactly five meet the 50-character
threshold: the usable fraction is exactly 0.5. -/
def exTenPages : List RawPage :=
  [⟨1, exT50⟩, ⟨2, exT50⟩, ⟨3, exT50⟩, ⟨4, exT50⟩, ⟨5, exT50⟩,
   ⟨6, ""⟩, ⟨7, ""⟩, ⟨8, ""⟩, ⟨9, ""⟩, ⟨10, ""⟩]

/-- An OCR result reporting pages 3 and 7 (pages 1, 2, 4, 5, 6 absent). -/
def exAzPages : List AzPage := [⟨3, [⟨exT60⟩]⟩, ⟨7, [⟨exT60⟩]⟩]

def exJobA : DocJob :=
  ⟨"doc-a.pdf", "2026-01-01T00:00:00.000Z", Except.ok [⟨1, exT60⟩], Except.ok [], true⟩

def exJobB : DocJob :=
  ⟨"doc-b.pdf", "2026-01-01T00:00:00.000Z", Except.ok [⟨1, ""⟩],
   Except.error "Azure OCR Failed", true⟩

def exJobC : DocJob :=
  ⟨"doc-c.pdf", "2026-01-01T00:00:00.000Z", Except.ok [⟨1, exT60⟩], Except.ok [], true⟩

def exJobs : List DocJob := [exJobA, exJobB, exJobC]

def exWsRaw : String := " \n\n \n"

def exCur9 : Block := ⟨BKind.paragraph, ["He ran."], 0⟩


/-! ## Theorems -/

/-- The doubled median agrees with the ℚ median. -/
theorem median2_eq (arr : List Nat) : (median2 arr : ℚ) = 2 * median arr := by
  unfold median2 median
  by_cases h : (List.insertionSort (· ≤ ·) arr).length % 2 = 1 <;>
    simp only [h, if_true, if_false, reduceIte] <;> push_cast <;> ring

/-- In `analyzeDocument`, `medianLength2` is twice `medianLength`. -/
theorem analyzeDocument_median2 (lines : List String) :
    ((analyzeDocument lines).medianLength2 : ℚ) = 2 * (analyzeDocument lines).medianLength := by
  simp only [analyzeDocument]
  exact median2_eq _

/-! Bridge theorems: each executable factor is ten times its ℚ reference. -/

/-- Two `if`s with equivalent conditions, where the `Nat` weight is ten times
the ℚ weight. -/
theorem ite_tenths {P Q : Prop} [Decidable P] [Decidable Q] (h : P ↔ Q)
    (n : Nat) (q : ℚ) (hnq : (n : ℚ) = 10 * q) :
    ((if P then n else 0 : Nat) : ℚ) = 10 * (if Q then q else 0) := by
  by_cases hp : P
  · rw [if_pos hp, if_pos (h.mp hp), hnq]
  · rw [if_neg hp, if_neg (fun hq => hp (h.mpr hq))]
    norm_num

theorem lengthFactor_eq (stats : Stats) (line : String)
    (hm : (stats.medianLength2 : ℚ) = 2 * stats.medianLength) :
    (lengthFactor stats line : ℚ) = 10 * lengthFactorQ stats line := by
  simp only [lengthFactor, lengthFactorQ]
  refine ite_tenths ?_ 10 1 (by norm_num)
  rw [show ((0.6 : ℚ)) = 6 / 10 by norm_num]
  rw [← Nat.cast_lt (α := ℚ)]
  push_cast [hm]
  rw [lt_min_iff, lt_min_iff]
  constructor <;> intro h <;> exact ⟨by nlinarith [h.1], by nlinarith [h.2]⟩

theorem allCapsFactor_eq (line : String) :
    (allCapsFactor line : ℚ) = 10 * allCapsFactorQ line := by
  simp only [allCapsFactor, allCapsFactorQ]
  exact ite_tenths Iff.rfl 20 2 (by norm_num)

theorem titleCaseFactor_eq (line : String) :
    (titleCaseFactor line : ℚ) = 10 * titleCaseFactorQ line := by
  simp only [titleCaseFactor, titleCaseFactorQ]
  refine ite_tenths (and_congr ?_ Iff.rfl) 15 1.5 (by norm_num)
  rw [show ((0.7 : ℚ)) = 7 / 10 by norm_num]
  rw [← Nat.cast_le (α := ℚ)]
  push_cast
  constructor <;> intro h <;> nlinarith

theorem noPunctFactor_eq (line : String) :
    (noPunctFactor line : ℚ) = 10 * noPunctFactorQ line := by
  simp only [noPunctFactor, noPunctFactorQ]
  exact ite_tenths Iff.rfl 10 1 (by norm_num)

theorem colonFactor_eq (line : String) :
    (colonFactor line : ℚ) = 10 * colonFactorQ line := by
  simp only [colonFactor, colonFactorQ]
  exact ite_tenths Iff.rfl 20 2 (by norm_num)

theorem numberedFactor_eq (line : String) :
    (numberedFactor line : ℚ) = 10 * numberedFactorQ line := by
  simp only [numberedFactor, numberedFactorQ]
  exact ite_tenths Iff.rfl 15 1.5 (by norm_num)

theorem contextFactor_eq (lines : List String) (line : String) (index : Int) :
    (contextFactor lines line index : ℚ) = 10 * contextFactorQ lines line index := by
  have hc : ∀ (a b : Nat), 3 * a < 2 * b ↔ (a : ℚ) * 1.5 < (b : ℚ) := by
    intro a b
    rw [show ((1.5 : ℚ)) = 3 / 2 by norm_num, ← Nat.cast_lt (α := ℚ)]
    push_cast
    constructor <;> intro h <;> nlinarith
  simp only [contextFactor, contextFactorQ]
  exact ite_tenths (or_congr (hc _ _) (hc _ _)) 5 0.5 (by norm_num)

theorem keywordFactor_eq (line : String) :
    (keywordFactor line : ℚ) = 10 * keywordFactorQ line := by
  unfold keywordFactor keywordFactorQ
  split <;> norm_num

/-- The executable score is ten times the JS score. -/
theorem scoreHeader_eq (lines : List String) (stats : Stats) (line : String) (index : Int)
    (hm : (stats.medianLength2 : ℚ) = 2 * stats.medianLength) :
    (scoreHeader lines stats line index : ℚ) = 10 * scoreHeaderQ lines stats line index := by
  unfold scoreHeader scoreHeaderQ
  push_cast [lengthFactor_eq stats line hm, allCapsFactor_eq, titleCaseFactor_eq,
    noPunctFactor_eq, colonFactor_eq, numberedFactor_eq, contextFactor_eq, keywordFactor_eq]
  ring

/-- The executable classifier decides the JS condition `score >= 2.5`. -/
theorem isHeaderLine_spec (lines : List String) (stats : Stats) (line : String) (index : Int)
    (hm : (stats.medianLength2 : ℚ) = 2 * stats.medianLength) :
    isHeaderLine lines stats line index = true ↔
      (2.5 : ℚ) ≤ scoreHeaderQ lines stats line index := by
  unfold isHeaderLine
  rw [decide_eq_true_iff]
  have h10 : ((scoreHeader lines stats line index : Nat) : ℚ) =
      10 * scoreHeaderQ lines stats line index := scoreHeader_eq lines stats line index hm
  constructor
  · intro h
    have : (25 : ℚ) ≤ (scoreHeader lines stats line index : ℚ) := by exact_mod_cast h
    nlinarith [this, h10]
  · intro h
    have : (25 : ℚ) ≤ (scoreHeader lines stats line index : ℚ) := by nlinarith [h10]
    exact_mod_cast this

/-! ### The list-block invariant of the reconstruction loop -/

theorem flushedOk_mono {c d : List String} {bs : List Block} (h : flushedOk c bs) :
    flushedOk (c ++ d) bs := by
  intro b hb hk
  obtain ⟨h1, h2⟩ := h b hb hk
  exact ⟨h1.trans (List.sublist_append_left c d), h2⟩

theorem curOk_mono {c d : List String} {cur : Block} (h : curOk c cur) :
    curOk (c ++ d) cur := by
  intro hk
  obtain ⟨h0, h1, h2⟩ := h hk
  exact ⟨h0, h1.trans (List.sublist_append_left c d), h2⟩

theorem flushedOk_append {c : List String} {bs : List Block} {b : Block}
    (h : flushedOk c bs)
    (hb : b.kind = BKind.list → b.lines.Sublist c ∧ ∀ s ∈ b.lines, isListItem s = true) :
    flushedOk c (bs ++ [b]) := by
  intro x hx hk
  rcases List.mem_append.mp hx with hx | hx
  · exact h x hx hk
  · rcases List.mem_singleton.mp hx with rfl
    exact hb hk

/-- `buildStep` coincides with its disentangled form `buildStepSpec`. -/
theorem buildStep_eq (lines : List String) (stats : Stats) (st : List Block × Block)
    (p : Nat × String) :
    buildStep lines stats st p = buildStepSpec lines stats st p := by
  obtain ⟨blocks, cur⟩ := st
  unfold buildStep buildStepSpec
  dsimp only
  by_cases h1 : isHeaderLine lines stats p.2 (p.1 : Int) = true
  · rw [if_pos h1, if_pos h1]
  · rw [if_neg h1, if_neg h1]
    by_cases h2 : isListItem p.2 = true
    · rw [if_pos h2, if_pos h2]
      by_cases hA : cur.kind = BKind.paragraph ∧ cur.lines ≠ []
      · rw [if_pos hA, if_pos hA]
        rfl
      · rw [if_neg hA, if_neg hA]
        by_cases hB : cur.kind = BKind.list
        · rw [if_pos hB]
          rw [if_neg (not_not_intro hB)]
        · rw [if_neg hB]
          rw [if_pos hB]
          rfl
    · rw [if_neg h2, if_neg h2]
      by_cases hA : cur.kind = BKind.list ∧ cur.lines ≠ []
      · rw [if_pos hA, if_pos hA]
        rfl
      · rw [if_neg hA, if_neg hA]

/-- One loop iteration preserves the list-block invariant, with the processed
line added to the consumed prefix. -/
theorem buildStepSpec_inv (lines : List String) (stats : Stats) (consumed : List String)
    (blocks : List Block) (cur : Block) (p : Nat × String)
    (hb : flushedOk consumed blocks) (hc : curOk consumed cur) :
    flushedOk (consumed ++ [p.2]) (buildStepSpec lines stats (blocks, cur) p).1 ∧
    curOk (consumed ++ [p.2]) (buildStepSpec lines stats (blocks, cur) p).2 := by
  have hbm : flushedOk (consumed ++ [p.2]) blocks := flushedOk_mono hb
  have hcm : curOk (consumed ++ [p.2]) cur := curOk_mono hc
  have hsubl : [p.2].Sublist (consumed ++ [p.2]) := List.sublist_append_right consumed [p.2]
  unfold buildStepSpec
  dsimp only
  by_cases h1 : isHeaderLine lines stats p.2 (p.1 : Int) = true
  · rw [if_pos h1]
    refine ⟨?_, fun hk => nomatch hk⟩
    refine flushedOk_append ?_ (fun hk => nomatch hk)
    by_cases hcl : cur.lines ≠ []
    · rw [if_pos hcl]
      exact flushedOk_append hbm (fun hk => (hcm hk).2)
    · rw [if_neg hcl]
      exact hbm
  · rw [if_neg h1]
    by_cases h2 : isListItem p.2 = true
    · rw [if_pos h2]
      by_cases hA : cur.kind = BKind.paragraph ∧ cur.lines ≠ []
      · rw [if_pos hA]
        refine ⟨flushedOk_append hbm (fun hk => nomatch hA.1.symm.trans hk), fun _ => ?_⟩
        refine ⟨by simp, hsubl, fun s hs => ?_⟩
        rcases List.mem_singleton.mp hs with rfl
        exact h2
      · rw [if_neg hA]
        by_cases hB : cur.kind = BKind.list
        · rw [if_pos hB]
          obtain ⟨hne, hsub, hall⟩ := hc hB
          refine ⟨hbm, fun _ => ⟨by simp, hsub.append (List.Sublist.refl [p.2]), fun s hs => ?_⟩⟩
          rcases List.mem_append.mp hs with hs | hs
          · exact hall s hs
          · rcases List.mem_singleton.mp hs with rfl
            exact h2
        · rw [if_neg hB]
          refine ⟨hbm, fun _ => ⟨by simp, hsubl, fun s hs => ?_⟩⟩
          rcases List.mem_singleton.mp hs with rfl
          exact h2
    · rw [if_neg h2]
      by_cases hA : cur.kind = BKind.list ∧ cur.lines ≠ []
      · rw [if_pos hA]
        exact ⟨flushedOk_append hbm (fun hk => (hcm hk).2), fun hk => nomatch hk⟩
      · rw [if_neg hA]
        have hknl : cur.kind ≠ BKind.list := by
          intro hk
          exact hA ⟨hk, (hc hk).1⟩
        by_cases h4 : cur.lines ≠ []
        · rw [if_pos h4]
          by_cases h5 : (!endsWithPunctuation (cur.lines.getLastD "") ||
              isContinuation lines stats p.2 ||
              (decide ((cur.lines.getLastD "").length < 80) && !startsWithCapital p.2)) = true
          · rw [if_pos h5]
            exact ⟨hbm, fun hk => absurd hk hknl⟩
          · rw [if_neg h5]
            exact ⟨hbm, fun hk => absurd hk hknl⟩
        · rw [if_neg h4]
          exact ⟨hbm, fun hk => absurd hk hknl⟩

/-- The whole loop preserves the list-block invariant. -/
theorem buildFold_inv (lines : List String) (stats : Stats) :
    ∀ (ps : List (Nat × String)) (blocks : List Block) (cur : Block) (consumed : List String),
      flushedOk consumed blocks → curOk consumed cur →
      flushedOk (consumed ++ ps.map Prod.snd)
          (List.foldl (buildStep lines stats) (blocks, cur) ps).1 ∧
        curOk (consumed ++ ps.map Prod.snd)
          (List.foldl (buildStep lines stats) (blocks, cur) ps).2 := by
  intro ps
  induction ps with
  | nil =>
    intro blocks cur consumed hb hc
    simpa using ⟨hb, hc⟩
  | cons p ps ih =>
    intro blocks cur consumed hb hc
    have hstep := buildStepSpec_inv lines stats consumed blocks cur p hb hc
    rw [← buildStep_eq] at hstep
    have := ih (buildStep lines stats (blocks, cur) p).1
      (buildStep lines stats (blocks, cur) p).2 (consumed ++ [p.2]) hstep.1 hstep.2
    simpa [List.append_assoc] using this

/-- Every list block produced by the reconstruction loop holds a subsequence of
the input lines, each of which is classified as a list item. -/
theorem buildBlocks_listInv (lines : List String) (stats : Stats) :
    ∀ b ∈ buildBlocks lines stats, b.kind = BKind.list →
      b.lines.Sublist lines ∧ ∀ s ∈ b.lines, isListItem s = true := by
  intro b hb hk
  have h0 := buildFold_inv lines stats lines.enum [] ⟨BKind.paragraph, [], 0⟩ []
    (fun x hx => absurd hx (List.not_mem_nil x)) (fun hkk => by simp at hkk)
  rw [List.nil_append] at h0
  have hsnd : lines.enum.map Prod.snd = lines := List.enumFrom_map_snd 0 lines
  rw [hsnd] at h0
  unfold buildBlocks at hb
  simp only at hb
  by_cases hcl : (List.foldl (buildStep lines stats) ([], ⟨BKind.paragraph, [], 0⟩)
      lines.enum).2.lines ≠ []
  · rw [if_pos hcl] at hb
    rcases List.mem_append.mp hb with hb | hb
    · exact h0.1 b hb hk
    · rcases List.mem_singleton.mp hb with rfl
      exact (h0.2 hk).2
  · rw [if_neg hcl] at hb
    exact h0.1 b hb hk

/-! ## Claim theorems -/

/-- C7: for every non-empty list of line lengths, `median` equals the standard
median of any sorted copy of the list: the middle element for odd counts, the
average of the two central elements for even counts. -/
theorem spec_c7_median (l : List Nat) (s : List Nat) (hne : l ≠ [])
    (hp : s.Perm l) (hs : List.Sorted (· ≤ ·) s) :
    median l =
      if l.length % 2 = 1 then ((s.getD (l.length / 2) 0 : Nat) : ℚ)
      else ((s.getD (l.length / 2 - 1) 0 : ℚ) + (s.getD (l.length / 2) 0 : ℚ)) / 2 := by
  have hins : s = List.insertionSort (· ≤ ·) l := by
    refine List.eq_of_perm_of_sorted ?_ hs (List.sorted_insertionSort _ l)
    exact hp.trans (List.perm_insertionSort _ l).symm
  have hlen : (List.insertionSort (· ≤ ·) l).length = l.length :=
    (List.perm_insertionSort _ l).length_eq
  subst hins
  simp only [median]
  rw [hlen]

/-- Witness for C7: the even-length list `[3, 1, 2, 4]` with sorted copy
`[1, 2, 3, 4]`. -/
theorem spec_c7_median_witness :
    ([3, 1, 2, 4] : List Nat) ≠ [] ∧
      median [3, 1, 2, 4] =
        ((([1, 2, 3, 4] : List Nat).getD (([3, 1, 2, 4] : List Nat).length / 2 - 1) 0 : ℚ) +
            (([1, 2, 3, 4] : List Nat).getD (([3, 1, 2, 4] : List Nat).length / 2) 0 : ℚ)) / 2 := by
  refine ⟨by decide, ?_⟩
  have h := spec_c7_median [3, 1, 2, 4] [1, 2, 3, 4] (by decide) (by decide) (by decide)
  rw [if_neg (by decide : ¬(([3, 1, 2, 4] : List Nat).length % 2 = 1))] at h
  exact h

/-- C10: for every raw text whose trimmed non-empty line set is empty (empty
string, or only whitespace and newlines), `cleanNaturalText` returns the empty
string (and, being a total function, does not fail). -/
theorem spec_c10_empty (raw : String) (h : mkLines raw = []) :
    cleanNaturalText raw = "" := by
  unfold cleanNaturalText
  by_cases h0 : raw = ""
  · rw [if_pos h0]
  · rw [if_neg h0]
    simp only [h]
    rfl

/-- Witness for C10 at a whitespace-and-newlines-only input. -/
theorem spec_c10_empty_witness :
    mkLines exWsRaw = [] ∧ cleanNaturalText exWsRaw = "" :=
  ⟨by decide, spec_c10_empty exWsRaw (by decide)⟩

/-- C1 counterexample: ten locally parsed pages of which exactly five meet the
50-character threshold, so the usable fraction is exactly 0.5; the claim says
the OCR backend must be invoked, but src/index.js uses the `some`-based test,
judges the local result usable, and keeps the pdf-parse result. -/
theorem spec_c1_counterexample :
    exTenPages.length = 10 ∧
    (exTenPages.filter (fun p => MIN_CHARS_PER_PAGE ≤ p.text.length)).length = 5 ∧
    usableCountP000 exTenPages = 5 ∧
    usableFractionP000 exTenPages = 1 / 2 ∧
    usableIndex exTenPages = true ∧
    methodIndex exTenPages false = Method.pdfParse := by
  refine ⟨by decide, by decide, by decide, ?_, by decide, by decide⟩
  unfold usableFractionP000
  rw [show usableCountP000 exTenPages = 5 by decide,
      show exTenPages.length = 10 by decide]
  norm_num

/-- C1 amended: in the part_000 revision, whenever the usable fraction is at
most 0.5 (stated exactly as `2 * usableCount ≤ pageCount`), the local result is
judged not usable and the OCR backend is selected; the boundary is exclusive. -/
theorem spec_c1_fraction (pages : List RawPage)
    (h : 2 * usableCountP000 pages ≤ pages.length) :
    usableFractionP000 pages ≤ 1 / 2 ∧ methodP000 pages false = Method.azure := by
  constructor
  · unfold usableFractionP000
    rcases Nat.eq_zero_or_pos pages.length with h0 | h0
    · rw [h0]
      norm_num
    · rw [div_le_iff₀ (by exact_mod_cast h0)]
      have hq : ((2 * usableCountP000 pages : Nat) : ℚ) ≤ ((pages.length : Nat) : ℚ) :=
        Nat.cast_le.mpr h
      push_cast at hq
      linarith
  · unfold methodP000 usableP000
    rw [decide_eq_false (Nat.not_lt.mpr h)]
    rfl

/-- Witness for C1 at exactly 5 usable pages out of 10. -/
theorem spec_c1_fraction_witness :
    2 * usableCountP000 exTenPages ≤ exTenPages.length ∧
    (usableFractionP000 exTenPages ≤ 1 / 2 ∧ methodP000 exTenPages false = Method.azure) :=
  ⟨by decide, spec_c1_fraction exTenPages (by decide)⟩

theorem pollIdx_const_failed (n : Nat) :
    extractAzurePollIdx n (fun _ => AzStatus.failed) = none := by
  induction n with
  | zero => rfl
  | succ n ih =>
    unfold extractAzurePollIdx
    rw [if_neg (by decide : ¬((fun _ : Nat => AzStatus.failed) 0 = AzStatus.succeeded))]
    exact ih

/-- C2 counterexample: every poll returns `failed`, and after 100 polls the
src/index.js loop has neither returned pages nor raised an error — contrary to
the claim, a `failed` status does not terminate the extraction. -/
theorem spec_c2_counterexample :
    (fun _ : Nat => AzStatus.failed) 0 = AzStatus.failed ∧
    extractAzurePollIdx 100 (fun _ => AzStatus.failed) = none :=
  ⟨rfl, pollIdx_const_failed 100⟩

/-- C2 amended: in the part_000 revision's active `extractAzure`, polling
continues only while the status is neither `succeeded` nor `failed`: at the
first terminal status the loop stops, failing the document on `failed` and
returning on `succeeded`. -/
theorem spec_c2_poll (s : Nat → AzStatus) (k fuel : Nat)
    (hrun : ∀ j, j < k → s j = AzStatus.running) (hfuel : k < fuel) :
    (s k = AzStatus.failed →
      extractAzurePollP000 fuel s = some (Except.error "Azure OCR Failed")) ∧
    (s k = AzStatus.succeeded →
      extractAzurePollP000 fuel s = some (Except.ok ())) := by
  induction k generalizing s fuel with
  | zero =>
    obtain ⟨m, rfl⟩ : ∃ m, fuel = m + 1 := ⟨fuel - 1, by omega⟩
    constructor
    · intro hf
      unfold extractAzurePollP000
      rw [if_neg (by rw [hf]; decide), if_pos hf]
    · intro hs
      unfold extractAzurePollP000
      rw [if_pos hs]
  | succ k ih =>
    obtain ⟨m, rfl⟩ : ∃ m, fuel = m + 1 := ⟨fuel - 1, by omega⟩
    have h0 : s 0 = AzStatus.running := hrun 0 (Nat.succ_pos k)
    have hne1 : ¬(s 0 = AzStatus.succeeded) := by rw [h0]; decide
    have hne2 : ¬(s 0 = AzStatus.failed) := by rw [h0]; decide
    have hrec : extractAzurePollP000 (m + 1) s =
        extractAzurePollP000 m (fun j => s (j + 1)) := by
      conv_lhs => rw [extractAzurePollP000]
      rw [if_neg hne1, if_neg hne2]
    have ih' := ih (fun j => s (j + 1)) m
      (fun j hj => hrun (j + 1) (Nat.succ_lt_succ hj)) (Nat.lt_of_succ_lt_succ hfuel)
    rw [hrec]
    exact ih'

/-- Witness for C2: a first poll returning `failed` fails the document. -/
theorem spec_c2_poll_witness :
    extractAzurePollP000 1 (fun _ => AzStatus.failed) =
      some (Except.error "Azure OCR Failed") :=
  (spec_c2_poll (fun _ => AzStatus.failed) 0 1
    (fun j hj => absurd hj (Nat.not_lt_zero j)) (by decide)).1 rfl

/-- C3: every document in the batch yields exactly one artifact — the worker
applied to that document — and a per-document failure is caught at the
document boundary (the artifact is an error record) without affecting how
many artifacts the other documents yield. -/
theorem spec_c3_queue (ov : Bool) (jobs : List DocJob) (i : Nat) :
    (runQueue jobs (processSinglePDF ov)).length = jobs.length ∧
    ∀ job, jobs[i]? = some job →
      (runQueue jobs (processSinglePDF ov))[i]? = some (processSinglePDF ov job) ∧
      (∀ out, pipeline ov job = Except.ok out →
        processSinglePDF ov job = Artifact.success (baseName job.name) out) ∧
      (∀ e, pipeline ov job = Except.error e →
        processSinglePDF ov job = Artifact.failure (baseName job.name) e) := by
  refine ⟨by simp [runQueue], ?_⟩
  intro job hj
  refine ⟨?_, ?_, ?_⟩
  · simp [runQueue, List.getElem?_map, hj]
  · intro out hout
    unfold processSinglePDF
    rw [hout]
  · intro e he
    unfold processSinglePDF
    rw [he]

/-- Witness for C3: a three-document batch whose middle document fails in the
OCR backend produces an error artifact for it and success artifacts for its
siblings. -/
theorem spec_c3_queue_witness :
    processSinglePDF false exJobB = Artifact.failure "doc-b" "Azure OCR Failed" ∧
    (processSinglePDF false exJobA).isFailure = false ∧
    (processSinglePDF false exJobC).isFailure = false ∧
    (runQueue exJobs (processSinglePDF false)).length = exJobs.length ∧
    (runQueue exJobs (processSinglePDF false))[1]? = some (processSinglePDF false exJobB) := by
  refine ⟨by decide, by decide, by decide, (spec_c3_queue false exJobs 1).1,
    ((spec_c3_queue false exJobs 1).2 exJobB (by decide)).1⟩

/-- C4 amended: the all-caps factor of `isHeaderLine` is zero for lines of 12
or more words (it does fire for 2 to 11 all-uppercase words), and a 2-word
all-uppercase line is classified as a header provided it does not end in
terminal punctuation and is under 100 characters. -/
theorem spec_c4_allcaps (lines : List String) (stats : Stats) (line : String) (index : Int) :
    (12 ≤ (splitWs line).length → allCapsFactor line = 0 ∧ allCapsFactorQ line = 0) ∧
    ((splitWs line).length = 2 → line = toUpperJS line → hasUpper line = true →
      endsWithPunctuation line = false → line.length < 100 →
      isHeaderLine lines stats line index = true) := by
  constructor
  · intro h12
    constructor
    · simp only [allCapsFactor]
      rw [if_neg]
      intro hcond
      omega
    · simp only [allCapsFactorQ]
      rw [if_neg]
      intro hcond
      omega
  · intro h2 hup hhas hp h100
    unfold isHeaderLine
    rw [decide_eq_true_iff]
    unfold scoreHeader
    have hf2 : allCapsFactor line = 20 := by
      simp only [allCapsFactor]
      rw [if_pos ⟨hup, hhas, by omega, by omega⟩]
    have hf4 : noPunctFactor line = 10 := by
      unfold noPunctFactor
      rw [if_pos ⟨hp, h100⟩]
    rw [hf2, hf4]
    omega

/-- C4 counterexample: an 11-word all-uppercase line receives the all-caps
weight (word-count bound is `< 12`, not `< 11`) and is classified as a header
only thanks to it, while the 2-word all-uppercase line `"AB CD."` (terminal
punctuation) is not classified as a header. -/
theorem spec_c4_counterexample :
    (splitWs exL11).length = 11 ∧
    exL11 = toUpperJS exL11 ∧
    allCapsFactor exL11 = 20 ∧
    isHeaderLine [exL11] (analyzeDocument [exL11]) exL11 0 = true ∧
    scoreHeader [exL11] (analyzeDocument [exL11]) exL11 0 - allCapsFactor exL11 < 25 ∧
    (splitWs exL2).length = 2 ∧
    exL2 = toUpperJS exL2 ∧
    hasUpper exL2 = true ∧
    isHeaderLine [exL2] (analyzeDocument [exL2]) exL2 0 = false := by
  decide

/-- Witness for C4: a 12-word all-caps line contributes nothing, and the 2-word
all-caps line `"AB CD"` is a header. -/
theorem spec_c4_allcaps_witness :
    (allCapsFactor exL12 = 0 ∧ allCapsFactorQ exL12 = 0) ∧
    isHeaderLine ["AB CD"] (analyzeDocument ["AB CD"]) "AB CD" 0 = true :=
  ⟨(spec_c4_allcaps [] (analyzeDocument []) exL12 0).1 (by decide),
   (spec_c4_allcaps ["AB CD"] (analyzeDocument ["AB CD"]) "AB CD" 0).2 (by decide) (by decide)
     (by decide) (by decide) (by decide)⟩

/-- C5 amended: the OCR extractor itself reports the backend page numbers, and
the part_000 output keeps them; but src/index.js `cleanPages` overwrites
`pageNumber` with the page's 1-based array position, so the final output of
that revision is numbered positionally. -/
theorem spec_c5_pagenumbers :
    (∀ ps : List AzPage, (extractAzurePages ps).map RawPage.page = ps.map AzPage.pageNumber) ∧
    (∀ (clean : String → String) (pages : List RawPage) (q : RawPage),
      q ∈ processedPagesP000 clean pages →
        ∃ p, p ∈ pages ∧ q.page = p.page ∧ q.text = clean p.text) ∧
    (∀ (pages : List RawPage) (q : CleanPage), q ∈ cleanPages pages →
      ∃ i, ∃ h : i < pages.length,
        q.pageNumber = i + 1 ∧ q.text = cleanedTextOf (pages.get ⟨i, h⟩).text) := by
  refine ⟨?_, ?_, ?_⟩
  · intro ps
    unfold extractAzurePages
    rw [List.map_map]
    rfl
  · intro clean pages q hq
    unfold processedPagesP000 at hq
    rw [List.mem_filter] at hq
    obtain ⟨hm, -⟩ := hq
    rw [List.mem_map] at hm
    obtain ⟨p, hp, rfl⟩ := hm
    exact ⟨p, hp, rfl, rfl⟩
  · intro pages q hq
    unfold cleanPages at hq
    rw [List.mem_filter] at hq
    obtain ⟨hm, -⟩ := hq
    rw [List.mem_map] at hm
    obtain ⟨pr, hpr, rfl⟩ := hm
    have h1 : pr.1 < pages.length := List.fst_lt_of_mem_enum hpr
    refine ⟨pr.1, h1, rfl, ?_⟩
    have h2 : pages[pr.1]? = some pr.2 := List.mem_enum_iff_getElem?.mp hpr
    rw [List.getElem?_eq_getElem h1] at h2
    rw [List.get_eq_getElem, ← Option.some.inj h2]

/-- C5 counterexample: an OCR result reporting pages 3 and 7 comes out of
src/index.js `cleanPages` numbered 1 and 2 — the array positions, not the
backend-reported numbers. -/
theorem spec_c5_counterexample :
    (extractAzurePages exAzPages).map RawPage.page = [3, 7] ∧
    (cleanPages (extractAzurePages exAzPages)).map CleanPage.pageNumber = [1, 2] := by
  decide

/-- Witness for C5: the extractor preserves the reported numbers `[3, 7]`, and
a concrete member of a `cleanPages` output carries its array position. -/
theorem spec_c5_pagenumbers_witness :
    ((extractAzurePages exAzPages).map RawPage.page = exAzPages.map AzPage.pageNumber) ∧
    (∃ i, ∃ h : i < ([⟨5, exT60⟩] : List RawPage).length,
      (⟨1, exT60⟩ : CleanPage).pageNumber = i + 1 ∧
      (⟨1, exT60⟩ : CleanPage).text = cleanedTextOf (([⟨5, exT60⟩] : List RawPage).get ⟨i, h⟩).text) :=
  ⟨spec_c5_pagenumbers.1 exAzPages,
   spec_c5_pagenumbers.2.2 [⟨5, exT60⟩] ⟨1, exT60⟩ (by decide)⟩

/-- C6 amended: a page appears in the `cleanPages` output iff its cleaned text,
after trimming surrounding whitespace, has length at least
`MIN_CHARS_PER_PAGE`; the untrimmed cleaned-text length is not what is tested. -/
theorem spec_c6_filter (pages : List RawPage) (q : CleanPage) :
    q ∈ cleanPages pages ↔
      ∃ i, ∃ h : i < pages.length,
        q = ⟨i + 1, cleanedTextOf (pages.get ⟨i, h⟩).text⟩ ∧
        MIN_CHARS_PER_PAGE ≤ (trimJS q.text).length := by
  unfold cleanPages
  rw [List.mem_filter]
  constructor
  · rintro ⟨hm, hlen⟩
    rw [List.mem_map] at hm
    obtain ⟨pr, hpr, rfl⟩ := hm
    have h1 : pr.1 < pages.length := List.fst_lt_of_mem_enum hpr
    have h2 : pages[pr.1]? = some pr.2 := List.mem_enum_iff_getElem?.mp hpr
    rw [List.getElem?_eq_getElem h1] at h2
    refine ⟨pr.1, h1, ?_, of_decide_eq_true hlen⟩
    rw [List.get_eq_getElem, ← Option.some.inj h2]
  · rintro ⟨i, hi, rfl, hlen⟩
    constructor
    · rw [List.mem_map]
      refine ⟨(i, pages.get ⟨i, hi⟩), ?_, rfl⟩
      rw [List.mem_enum_iff_getElem?]
      rw [List.get_eq_getElem, List.getElem?_eq_getElem hi]
    · exact decide_eq_true hlen

/-- C6 counterexample: a page whose cleaned text has length exactly 50 — the
claim says it must appear in the output — is dropped, because the filter tests
the trimmed length (49 here: the `"Page 11 of 22"` removal leaves a trailing
space). -/
theorem spec_c6_counterexample :
    (cleanedTextOf exT6).length = 50 ∧
    MIN_CHARS_PER_PAGE ≤ (cleanedTextOf exT6).length ∧
    (trimJS (cleanedTextOf exT6)).length = 49 ∧
    cleanPages [(⟨1, exT6⟩ : RawPage)] = [] := by
  decide

/-- Witness for C6 showing a kept page via the iff. -/
theorem spec_c6_filter_witness :
    (⟨1, exT60⟩ : CleanPage) ∈ cleanPages [(⟨5, exT60⟩ : RawPage)] :=
  (spec_c6_filter [⟨5, exT60⟩] ⟨1, exT60⟩).mpr ⟨0, by decide, by decide, by decide⟩

/-- C8: list blocks are never merged with adjacent paragraph text — every line
of a list block is one of the input lines verbatim (a subsequence, in original
order) and is classified as a list item; list blocks render joined by newlines;
and a plain line arriving while a list block is open flushes the list block
unchanged and starts a fresh paragraph block. -/
theorem spec_c8_listblocks :
    (∀ (raw : String) (b : Block),
        b ∈ buildBlocks (mkLines raw) (analyzeDocument (mkLines raw)) →
        b.kind = BKind.list →
          b.lines.Sublist (mkLines raw) ∧ (∀ s ∈ b.lines, isListItem s = true) ∧
          renderBlock b = joinSep "\n" b.lines) ∧
    (∀ (lines : List String) (stats : Stats) (blocks : List Block) (cur : Block)
        (i : Nat) (line : String),
        cur.kind = BKind.list → cur.lines ≠ [] →
        isHeaderLine lines stats line (i : Int) = false → isListItem line = false →
        buildStep lines stats (blocks, cur) (i, line) =
          (blocks ++ [cur], ⟨BKind.paragraph, [line], 0⟩)) := by
  constructor
  · intro raw b hb hk
    obtain ⟨hsub, hall⟩ :=
      buildBlocks_listInv (mkLines raw) (analyzeDocument (mkLines raw)) b hb hk
    refine ⟨hsub, hall, ?_⟩
    obtain ⟨k, ls, lv⟩ := b
    cases hk
    rfl
  · intro lines stats blocks cur i line hkind hne hh hl
    rw [buildStep_eq]
    simp only [buildStepSpec]
    have hh' : ¬(isHeaderLine lines stats line (i : Int) = true) := by
      rw [hh]
      simp
    have hl' : ¬(isListItem line = true) := by
      rw [hl]
      simp
    rw [if_neg hh', if_neg hl', if_pos ⟨hkind, hne⟩]

/-- Witness for C8 at a two-item bullet list and a concrete flush step. -/
theorem spec_c8_listblocks_witness :
    (exListBlock.lines.Sublist (mkLines exRaw8) ∧
      (∀ s ∈ exListBlock.lines, isListItem s = true) ∧
      renderBlock exListBlock = joinSep "\n" exListBlock.lines) ∧
    buildStep (mkLines exRaw8) (analyzeDocument (mkLines exRaw8))
        ([], exListBlock) (2, "plain tail") =
      ([] ++ [exListBlock], ⟨BKind.paragraph, ["plain tail"], 0⟩) :=
  ⟨spec_c8_listblocks.1 exRaw8 exListBlock (by decide) rfl,
   spec_c8_listblocks.2 (mkLines exRaw8) (analyzeDocument (mkLines exRaw8)) [] exListBlock 2
     "plain tail" rfl (by decide) (by decide) (by decide)⟩

/-- C9 amended: in a reconstruction pass, a plain line following an open
paragraph whose last line ends in sentence punctuation is pushed as a new line
(not merged) provided the new line is not a continuation (it does not start
lowercase) and either the previous line is at least 80 characters long or the
new line starts with a capital, quote, or bracket.  Without those provisos the
second pass can merge such pairs (see the counterexample). -/
theorem spec_c9_nomerge (lines : List String) (stats : Stats) (blocks : List Block)
    (cur : Block) (i : Nat) (line : String)
    (hkind : cur.kind = BKind.paragraph) (hne : cur.lines ≠ [])
    (hpunct : endsWithPunctuation (cur.lines.getLastD "") = true)
    (hh : isHeaderLine lines stats line (i : Int) = false)
    (hl : isListItem line = false)
    (hcont : isContinuation lines stats line = false)
    (hcap : 80 ≤ (cur.lines.getLastD "").length ∨ startsWithCapital line = true) :
    buildStep lines stats (blocks, cur) (i, line) =
      (blocks, { cur with lines := cur.lines ++ [line] }) := by
  rw [buildStep_eq]
  simp only [buildStepSpec]
  have hh' : ¬(isHeaderLine lines stats line (i : Int) = true) := by
    rw [hh]
    simp
  have hl' : ¬(isListItem line = true) := by
    rw [hl]
    simp
  have hA : ¬(cur.kind = BKind.list ∧ cur.lines ≠ []) := by
    rintro ⟨hk, -⟩
    rw [hkind] at hk
    exact BKind.noConfusion hk
  rw [if_neg hh', if_neg hl', if_neg hA, if_pos hne]
  have hsm : (!endsWithPunctuation (cur.lines.getLastD "") ||
      isContinuation lines stats line ||
      (decide ((cur.lines.getLastD "").length < 80) && !startsWithCapital line)) = false := by
    rw [hpunct, hcont]
    rcases hcap with hlen | hcap
    · rw [decide_eq_false (by omega : ¬((cur.lines.getLastD "").length < 80))]
      rfl
    · rw [hcap]
      simp
  rw [if_neg (by rw [hsm]; simp : ¬((!endsWithPunctuation (cur.lines.getLastD "") ||
      isContinuation lines stats line ||
      (decide ((cur.lines.getLastD "").length < 80) && !startsWithCapital line)) = true))]

/-- C9 counterexample: re-running `cleanNaturalText` on its own rendered output
merges the two re-split lines even though the first ends in a period — the
second line (the rendered header `"## … ##"`) is no longer classified as a
header in the second pass, starts with `#` (not a capital), and the first line
is shorter than 80 characters, so the short-line merge clause fires. -/
theorem spec_c9_counterexample :
    mkLines (cleanNaturalText exD9) = [exP1, exR9] ∧
    endsSentence exP1 = true ∧
    endsWithPunctuation exP1 = true ∧
    buildBlocks (mkLines (cleanNaturalText exD9))
        (analyzeDocument (mkLines (cleanNaturalText exD9))) =
      [⟨BKind.paragraph, [exP1 ++ " " ++ exR9], 0⟩] ∧
    cleanNaturalText (cleanNaturalText exD9) = exP1 ++ " " ++ exR9 := by
  decide

/-- Witness for C9: a capital-starting plain sentence after a period is pushed,
not merged. -/
theorem spec_c9_nomerge_witness :
    buildStep ["He ran.", "Then he stopped."]
        (analyzeDocument ["He ran.", "Then he stopped."])
        ([], exCur9) (1, "Then he stopped.") =
      ([], { exCur9 with lines := exCur9.lines ++ ["Then he stopped."] }) :=
  spec_c9_nomerge ["He ran.", "Then he stopped."]
    (analyzeDocument ["He ran.", "Then he stopped."]) [] exCur9 1 "Then he stopped."
    rfl (by decide) (by decide) (by decide) (by decide) (by decide)
    (Or.inr (by decide))

end PdfPipeline
